import Mathlib

/-!
Verification of the mackerel-plugin-aws-lambda metric pipeline.

Shallow embedding of `lib/aws-lambda.go` (package `mpawslambda`).

Modelling conventions:
* Go `time.Time` instants are integers counting nanoseconds; the zero value
  `time.Time{}` (created by `new(time.Time)`) is `0`, and `t1.Before(t2)` is `t1 < t2`.
* Go `float64` statistic values are modelled as rationals (`Rat`); the claims under
  study concern key structure and the single subtraction `total - error`, not
  floating-point rounding.
* Go `interface{}` values stored in the `map[string]interface{}` record are modelled
  by `GoValue`, a sum of a float64 payload and a non-float payload, so that the
  type assertion `stats[k].(float64)` and the invariant "every value is a float64"
  are meaningful.
* The record `map[string]interface{}` is modelled extensionally as
  `String → Option GoValue` (Go map equality is key-value equality; iteration order
  is not observed by this code).
* The CloudWatch client is an oracle parameter `GetMetricStatisticsInput →
  Except GoError (List Datapoint)`, and the wall clock read by `time.Now()` is the
  explicit parameter `now`.
* A nil-pointer dereference (Go panic) is modelled by `Option`-valued computations
  returning `none`; the `Option` propagates through the rest of the run, as a panic
  kills the process.
-/

namespace MpAwsLambda

/-- Go `interface{}` values that can appear in the stats record: either a `float64`
(modelled as `Rat`) or some non-float dynamic value. -/
inductive GoValue where
  | float (x : Rat)
  | other (s : String)
  deriving DecidableEq, Repr

/-- The stats record type (Go map from string to dynamic value), modelled extensionally. -/
def StatMap : Type := String → Option GoValue

/-- The empty map `make(map[string]interface{})`. -/
def emptyStats : StatMap := fun _ => none

/-- Assignment `stats[k] = v` on a Go map: overwrite the binding of `k`. -/
def updateStat (stats : StatMap) (k : String) (v : GoValue) : StatMap :=
  fun k' => if k' = k then some v else stats k'

/-- Deletion `delete(stats, k)` on a Go map. -/
def deleteStat (stats : StatMap) (k : String) : StatMap :=
  fun k' => if k' = k then none else stats k'

/-- A Go `error` value, carrying its message. -/
structure GoError where
  msg : String
  deriving DecidableEq, Repr

/-- The error built by `errors.New("fetched no datapoints")` (source line 102). -/
def noDataError : GoError := ⟨"fetched no datapoints"⟩

/-- Structure `cloudwatch.Datapoint`: a timestamp plus optional statistic fields
(`*float64` pointers in Go; `none` is a nil pointer). -/
structure Datapoint where
  Timestamp : Int
  Average : Option Rat
  Sum : Option Rat
  Maximum : Option Rat
  Minimum : Option Rat
  deriving DecidableEq, Repr

/-- Go `time.Second` in nanoseconds. -/
def timeSecond : Int := 1000000000

/-- Source constant `metricsTypeAverage`. -/
def metricsTypeAverage : String := "Average"

/-- Source constant `metricsTypeSum`. -/
def metricsTypeSum : String := "Sum"

/-- Source constant `metricsTypeMaximum`. -/
def metricsTypeMaximum : String := "Maximum"

/-- Source constant `metricsTypeMinimum`. -/
def metricsTypeMinimum : String := "Minimum"

/-- Source type `metric`: one Mackerel metric name with its statistic kind
(the Go field `Type` is rendered `type`). -/
structure metric where
  MackerelName : String
  type : String
  deriving DecidableEq, Repr

/-- Source type `metricsGroup`: one CloudWatch metric name and its N Mackerel metrics. -/
structure metricsGroup where
  CloudWatchName : String
  Metrics : List metric
  deriving DecidableEq, Repr

/-- Structure `cloudwatch.GetMetricStatisticsInput` restricted to the fields the source sets. -/
structure GetMetricStatisticsInput where
  Dimensions : List (String × String)
  StartTime : Int
  EndTime : Int
  MetricName : String
  Period : Int
  Statistics : List String
  Namespace : String
  deriving DecidableEq, Repr

/-- The query built by `getLastPointFromCloudWatch` (source lines 82-95):
one `FunctionName` dimension, window `[now - 180s, now]`, period 600, the group's
statistic kinds, namespace `AWS/Lambda`. -/
def buildGetMetricStatisticsInput (now : Int) (functionName : String)
    (metric : metricsGroup) : GetMetricStatisticsInput :=
  { Dimensions := [("FunctionName", functionName)]
    StartTime := now - 180 * timeSecond
    EndTime := now
    MetricName := metric.CloudWatchName
    Period := 600
    Statistics := metric.Metrics.map (fun typ => typ.type)
    Namespace := "AWS/Lambda" }

/-- One iteration of the selection loop (source lines 107-114): skip the datapoint
when its timestamp is `Before` the best-so-far, otherwise adopt it. -/
def selectStep (acc : Int × Option Datapoint) (dp : Datapoint) : Int × Option Datapoint :=
  if dp.Timestamp < acc.1 then acc else (dp.Timestamp, some dp)

/-- The selection loop of `getLastPointFromCloudWatch` (source lines 105-114):
`latest` starts at the zero time `new(time.Time)` and `latestDp` at nil. -/
def selectLatestDatapoint (datapoints : List Datapoint) : Option Datapoint :=
  (datapoints.foldl selectStep ((0 : Int), (none : Option Datapoint))).2

/-- Function `getLastPointFromCloudWatch` (source lines 76-117): query CloudWatch, pass
upstream errors through, return `noDataError` on an empty datapoint list, otherwise
select the latest datapoint (possibly nil). -/
def getLastPointFromCloudWatch
    (cw : GetMetricStatisticsInput → Except GoError (List Datapoint))
    (now : Int) (functionName : String) (metric : metricsGroup) :
    Except GoError (Option Datapoint) :=
  match cw (buildGetMetricStatisticsInput now functionName metric) with
  | .error err => .error err
  | .ok datapoints =>
      if datapoints.length = 0 then .error noDataError
      else .ok (selectLatestDatapoint datapoints)

/-- Method `TransformMetrics` (source lines 120-131): when the internal total key holds a
`float64`, write `invocations_success` (total minus error when the error key holds a
`float64`, otherwise total) and delete the internal total key; otherwise return the
record unchanged. -/
def transformMetrics (stats : StatMap) : StatMap :=
  match stats "TEMPORARY_invocations_total" with
  | some (GoValue.float totalCount) =>
      let stats1 :=
        match stats "invocations_error" with
        | some (GoValue.float errorCount) =>
            updateStat stats "invocations_success" (GoValue.float (totalCount - errorCount))
        | _ => updateStat stats "invocations_success" (GoValue.float totalCount)
      deleteStat stats1 "TEMPORARY_invocations_total"
  | _ => stats

/-- One arm of the merge switch (source lines 156-165): for a known statistic kind,
dereference the datapoint pointer and the statistic field (`none` = nil = panic) and
write the value; an unknown kind falls through the switch without writing. -/
def mergeStep (v : Option Datapoint) (stat : StatMap) (typ : metric) : Option StatMap :=
  if typ.type = metricsTypeAverage then
    match v.bind Datapoint.Average with
    | some x => some (updateStat stat typ.MackerelName (GoValue.float x))
    | none => none
  else if typ.type = metricsTypeSum then
    match v.bind Datapoint.Sum with
    | some x => some (updateStat stat typ.MackerelName (GoValue.float x))
    | none => none
  else if typ.type = metricsTypeMaximum then
    match v.bind Datapoint.Maximum with
    | some x => some (updateStat stat typ.MackerelName (GoValue.float x))
    | none => none
  else if typ.type = metricsTypeMinimum then
    match v.bind Datapoint.Minimum with
    | some x => some (updateStat stat typ.MackerelName (GoValue.float x))
    | none => none
  else some stat

/-- The merge loop of `FetchMetrics` (source lines 155-166): fold each of the
group's metrics into the record; a nil dereference aborts the run. -/
def mergeStatsFromDatapoint (stat : StatMap) (v : Option Datapoint)
    (metric : metricsGroup) : Option StatMap :=
  metric.Metrics.foldlM (fun s typ => mergeStep v s typ) stat

/-- The fixed metric catalog of `FetchMetrics` (source lines 137-152). -/
def metricCatalog : List metricsGroup :=
  [ { CloudWatchName := "Invocations"
      Metrics := [{ MackerelName := "TEMPORARY_invocations_total", type := metricsTypeSum }] },
    { CloudWatchName := "Errors"
      Metrics := [{ MackerelName := "invocations_error", type := metricsTypeSum }] },
    { CloudWatchName := "Throttles"
      Metrics := [{ MackerelName := "invocations_throttles", type := metricsTypeSum }] },
    { CloudWatchName := "Duration"
      Metrics := [{ MackerelName := "duration_avg", type := metricsTypeAverage },
                  { MackerelName := "duration_max", type := metricsTypeMaximum },
                  { MackerelName := "duration_min", type := metricsTypeMinimum }] } ]

/-- The group loop of `FetchMetrics` (source lines 137-170), generalised over the
list of groups: on a fetch error, log and continue with the next group; on success,
merge the selected datapoint (a nil dereference aborts the run). -/
def processGroups (fetch : metricsGroup → Except GoError (Option Datapoint)) :
    List metricsGroup → StatMap → Option StatMap
  | [], stat => some stat
  | met :: rest, stat =>
      match fetch met with
      | .ok v =>
          match mergeStatsFromDatapoint stat v met with
          | some stat1 => processGroups fetch rest stat1
          | none => none
      | .error _ => processGroups fetch rest stat

/-- Method `FetchMetrics` (source lines 134-172): process every catalog group starting from
an empty record, then apply `TransformMetrics` to the result. -/
def fetchMetrics (cw : GetMetricStatisticsInput → Except GoError (List Datapoint))
    (now : Int) (functionName : String) : Option StatMap :=
  (processGroups (fun met => getLastPointFromCloudWatch cw now functionName met)
      metricCatalog emptyStats).map transformMetrics

/-! Auxiliary definitions used by the proofs. -/

/-- Abstract effect of one merge-switch arm on the record: abort (nil dereference),
fall through, or write one key. -/
inductive StepAction where
  | panic
  | skip
  | write (k : String) (x : Rat)
  deriving DecidableEq, Repr

/-- The effect of `mergeStep v _ typ`, which does not depend on the record. -/
def stepAction (v : Option Datapoint) (typ : metric) : StepAction :=
  if typ.type = metricsTypeAverage then
    match v.bind Datapoint.Average with
    | some x => .write typ.MackerelName x
    | none => .panic
  else if typ.type = metricsTypeSum then
    match v.bind Datapoint.Sum with
    | some x => .write typ.MackerelName x
    | none => .panic
  else if typ.type = metricsTypeMaximum then
    match v.bind Datapoint.Maximum with
    | some x => .write typ.MackerelName x
    | none => .panic
  else if typ.type = metricsTypeMinimum then
    match v.bind Datapoint.Minimum with
    | some x => .write typ.MackerelName x
    | none => .panic
  else .skip

/-- Pure (panic-free) version of one merge step. -/
def pureStep (v : Option Datapoint) (stat : StatMap) (typ : metric) : StatMap :=
  match stepAction v typ with
  | .write k x => updateStat stat k (GoValue.float x)
  | _ => stat

/-- Pure version of the merge loop over a list of metrics. -/
def pureMergeList (v : Option Datapoint) (l : List metric) (stat : StatMap) : StatMap :=
  l.foldl (fun s typ => pureStep v s typ) stat

/-- The value of the last write to key `k` performed by the merge loop, if any. -/
def lastWriteVal (v : Option Datapoint) (l : List metric) (k : String) : Option Rat :=
  l.foldl
    (fun acc typ =>
      match stepAction v typ with
      | .write k1 x => if k1 = k then some x else acc
      | _ => acc)
    none

/-- Invariant of the selection loop relative to the datapoints seen so far:
with no candidate adopted the best-so-far time is still the zero sentinel and every
seen timestamp is strictly before it; with a candidate adopted, the best-so-far time
is its (non-negative) timestamp, every datapoint after it is strictly earlier and
every datapoint before it is not later. -/
def SelectInv (seen : List Datapoint) (s : Int × Option Datapoint) : Prop :=
  (s.2 = none → s.1 = 0 ∧ ∀ d ∈ seen, d.Timestamp < 0) ∧
  (∀ dp, s.2 = some dp → s.1 = dp.Timestamp ∧ 0 ≤ dp.Timestamp ∧
    ∃ l1 l2, seen = l1 ++ dp :: l2 ∧
      (∀ d ∈ l1, d.Timestamp ≤ dp.Timestamp) ∧
      (∀ d ∈ l2, d.Timestamp < dp.Timestamp))

/-- The six externally visible output keys of the plugin. -/
def outputKeys : List String :=
  ["invocations_success", "invocations_error", "invocations_throttles",
   "duration_avg", "duration_max", "duration_min"]

/-- The keys the catalog groups write before the transform step. -/
def mergedKeys : List String :=
  ["TEMPORARY_invocations_total", "invocations_error", "invocations_throttles",
   "duration_avg", "duration_max", "duration_min"]

/-! Concrete fixtures used by witnesses and counterexamples. -/

/-- A datapoint timestamped strictly before the Go zero time. -/
def dpBeforeZero : Datapoint := ⟨-1, none, none, none, none⟩

/-- A fully populated datapoint at the zero instant. -/
def dpFull : Datapoint := ⟨0, some 1, some 2, some 3, some 4⟩

/-- A CloudWatch oracle that fails for the Errors metric and returns one fully
populated datapoint for every other query. -/
def cwErrorsFail : GetMetricStatisticsInput → Except GoError (List Datapoint) :=
  fun q => if q.MetricName = "Errors" then .error ⟨"boom"⟩ else .ok [dpFull]

/-- The Errors group of the catalog, as a standalone fixture. -/
def errorsGroup : metricsGroup :=
  { CloudWatchName := "Errors"
    Metrics := [{ MackerelName := "invocations_error", type := metricsTypeSum }] }

/-! Map lemmas. -/

theorem updateStat_apply (stats : StatMap) (k k1 : String) (v : GoValue) :
    updateStat stats k v k1 = if k1 = k then some v else stats k1 := rfl

theorem deleteStat_apply (stats : StatMap) (k k1 : String) :
    deleteStat stats k k1 = if k1 = k then none else stats k1 := rfl

/-! Merge-step lemmas. -/

theorem mergeStep_eq_action (v : Option Datapoint) (stat : StatMap) (typ : metric) :
    mergeStep v stat typ =
      match stepAction v typ with
      | .panic => none
      | .skip => some stat
      | .write k x => some (updateStat stat k (GoValue.float x)) := by
  unfold mergeStep stepAction
  split_ifs <;>
    first
      | rfl
      | (cases v.bind Datapoint.Average <;> rfl)
      | (cases v.bind Datapoint.Sum <;> rfl)
      | (cases v.bind Datapoint.Maximum <;> rfl)
      | (cases v.bind Datapoint.Minimum <;> rfl)

theorem stepAction_write_name (v : Option Datapoint) (typ : metric) (k : String) (x : Rat)
    (h : stepAction v typ = .write k x) : k = typ.MackerelName := by
  unfold stepAction at h
  split_ifs at h <;>
    first
      | (cases hb : v.bind Datapoint.Average <;> rw [hb] at h <;> cases h <;> rfl)
      | (cases hb : v.bind Datapoint.Sum <;> rw [hb] at h <;> cases h <;> rfl)
      | (cases hb : v.bind Datapoint.Maximum <;> rw [hb] at h <;> cases h <;> rfl)
      | (cases hb : v.bind Datapoint.Minimum <;> rw [hb] at h <;> cases h <;> rfl)
      | exact StepAction.noConfusion h

theorem foldlM_mergeStep_of_no_panic (v : Option Datapoint) (l : List metric)
    (stat : StatMap) (h : ∀ typ ∈ l, stepAction v typ ≠ .panic) :
    l.foldlM (fun s typ => mergeStep v s typ) stat = some (pureMergeList v l stat) := by
  induction l generalizing stat with
  | nil => rfl
  | cons t rest ih =>
    have ht : stepAction v t ≠ .panic := h t (List.mem_cons_self t rest)
    rw [List.foldlM_cons, mergeStep_eq_action]
    cases ha : stepAction v t with
    | panic => exact absurd ha ht
    | skip =>
        show rest.foldlM (fun s typ => mergeStep v s typ) stat = _
        rw [ih stat (fun typ h1 => h typ (List.mem_cons_of_mem t h1))]
        simp [pureMergeList, pureStep, ha]
    | write k x =>
        show rest.foldlM (fun s typ => mergeStep v s typ) _ = _
        rw [ih _ (fun typ h1 => h typ (List.mem_cons_of_mem t h1))]
        simp [pureMergeList, pureStep, ha]

theorem foldlM_mergeStep_of_panic (v : Option Datapoint) (l : List metric)
    (stat : StatMap) (h : ∃ typ ∈ l, stepAction v typ = .panic) :
    l.foldlM (fun s typ => mergeStep v s typ) stat = none := by
  induction l generalizing stat with
  | nil => obtain ⟨typ, h1, _⟩ := h; exact absurd h1 (List.not_mem_nil typ)
  | cons t rest ih =>
    rw [List.foldlM_cons, mergeStep_eq_action]
    cases ha : stepAction v t with
    | panic => rfl
    | skip =>
        obtain ⟨typ, h1, h2⟩ := h
        rcases List.mem_cons.mp h1 with h1 | h1
        · subst h1; rw [ha] at h2; cases h2
        · exact ih stat ⟨typ, h1, h2⟩
    | write k x =>
        obtain ⟨typ, h1, h2⟩ := h
        rcases List.mem_cons.mp h1 with h1 | h1
        · subst h1; rw [ha] at h2; cases h2
        · exact ih _ ⟨typ, h1, h2⟩

theorem lastWriteVal_foldl_init (v : Option Datapoint) (l : List metric) (k : String)
    (acc : Option Rat) :
    l.foldl
        (fun acc1 typ =>
          match stepAction v typ with
          | .write k1 x => if k1 = k then some x else acc1
          | _ => acc1)
        acc =
      match lastWriteVal v l k with
      | some x => some x
      | none => acc := by
  induction l generalizing acc with
  | nil => simp [lastWriteVal]
  | cons t rest ih =>
    have hR : lastWriteVal v (t :: rest) k =
        match lastWriteVal v rest k with
        | some x => some x
        | none =>
            match stepAction v t with
            | .write k1 x => if k1 = k then some x else none
            | _ => none := by
      show List.foldl _ _ rest = _
      rw [ih]
    rw [List.foldl_cons, ih, hR]
    cases lastWriteVal v rest k with
    | some x => rfl
    | none =>
        cases stepAction v t with
        | panic => rfl
        | skip => rfl
        | write k1 x => by_cases hk : k1 = k <;> simp [hk]

theorem lastWriteVal_cons (v : Option Datapoint) (t : metric) (rest : List metric)
    (k : String) :
    lastWriteVal v (t :: rest) k =
      match lastWriteVal v rest k with
      | some x => some x
      | none =>
          match stepAction v t with
          | .write k1 x => if k1 = k then some x else none
          | _ => none := by
  show List.foldl _ _ rest = _
  rw [lastWriteVal_foldl_init]

theorem pureMergeList_apply (v : Option Datapoint) (l : List metric) (stat : StatMap)
    (k : String) :
    pureMergeList v l stat k =
      match lastWriteVal v l k with
      | some x => some (GoValue.float x)
      | none => stat k := by
  induction l generalizing stat with
  | nil => simp [pureMergeList, lastWriteVal]
  | cons t rest ih =>
    show pureMergeList v rest (pureStep v stat t) k = _
    rw [ih, lastWriteVal_cons]
    cases lastWriteVal v rest k with
    | some x => rfl
    | none =>
        cases ha : stepAction v t with
        | panic => simp [pureStep, ha]
        | skip => simp [pureStep, ha]
        | write k1 x =>
            by_cases hk : k1 = k
            · subst hk; simp [pureStep, ha, updateStat]
            · have hk2 : ¬ k = k1 := fun h => hk h.symm
              simp [pureStep, ha, updateStat, hk, hk2]

theorem lastWriteVal_mem (v : Option Datapoint) (l : List metric) (k : String) (x : Rat)
    (h : lastWriteVal v l k = some x) : ∃ typ ∈ l, typ.MackerelName = k := by
  induction l with
  | nil => simp [lastWriteVal] at h
  | cons t rest ih =>
    rw [lastWriteVal_cons] at h
    cases hw : lastWriteVal v rest k with
    | some y =>
        rw [hw] at h
        rw [Option.some.inj h] at hw
        obtain ⟨typ, h1, h2⟩ := ih hw
        exact ⟨typ, List.mem_cons_of_mem t h1, h2⟩
    | none =>
        rw [hw] at h
        cases ha : stepAction v t with
        | panic => rw [ha] at h; exact Option.noConfusion h
        | skip => rw [ha] at h; exact Option.noConfusion h
        | write k1 y =>
            rw [ha] at h
            have h2 : (if k1 = k then some y else none) = some x := h
            by_cases hk : k1 = k
            · refine ⟨t, List.mem_cons_self t rest, ?_⟩
              rw [← stepAction_write_name v t k1 y ha]
              exact hk
            · rw [if_neg hk] at h2; exact Option.noConfusion h2

/-! Merge-loop lemmas. -/

theorem mergeStats_eq_pure (stat : StatMap) (v : Option Datapoint) (g : metricsGroup)
    (stat1 : StatMap) (h : mergeStatsFromDatapoint stat v g = some stat1) :
    stat1 = pureMergeList v g.Metrics stat := by
  by_cases hp : ∃ typ ∈ g.Metrics, stepAction v typ = .panic
  · rw [mergeStatsFromDatapoint, foldlM_mergeStep_of_panic v g.Metrics stat hp] at h
    exact Option.noConfusion h
  · push_neg at hp
    rw [mergeStatsFromDatapoint, foldlM_mergeStep_of_no_panic v g.Metrics stat hp] at h
    exact (Option.some.inj h).symm

theorem mergeStats_binding_origin (stat : StatMap) (v : Option Datapoint)
    (g : metricsGroup) (stat1 : StatMap) (k : String) (val : GoValue)
    (h : mergeStatsFromDatapoint stat v g = some stat1) (h2 : stat1 k = some val) :
    stat k = some val ∨
      ((∃ m ∈ g.Metrics, m.MackerelName = k) ∧ ∃ x, val = GoValue.float x) := by
  rw [mergeStats_eq_pure stat v g stat1 h, pureMergeList_apply] at h2
  cases hw : lastWriteVal v g.Metrics k with
  | some x =>
      rw [hw] at h2
      exact Or.inr ⟨lastWriteVal_mem v g.Metrics k x hw, x, (Option.some.inj h2).symm⟩
  | none => rw [hw] at h2; exact Or.inl h2

/-! Group-loop lemmas. -/

theorem processGroups_error_skip (fetch : metricsGroup → Except GoError (Option Datapoint))
    (met : metricsGroup) (rest : List metricsGroup) (stat : StatMap) (e : GoError)
    (h : fetch met = .error e) :
    processGroups fetch (met :: rest) stat = processGroups fetch rest stat := by
  rw [processGroups, h]

theorem processGroups_binding_origin (fetch : metricsGroup → Except GoError (Option Datapoint))
    (gs : List metricsGroup) (stat result : StatMap) (k : String) (val : GoValue)
    (h : processGroups fetch gs stat = some result) (h2 : result k = some val) :
    stat k = some val ∨
      ∃ g ∈ gs, (∃ v, fetch g = .ok v) ∧
        (∃ m ∈ g.Metrics, m.MackerelName = k) ∧ ∃ x, val = GoValue.float x := by
  induction gs generalizing stat with
  | nil =>
      rw [processGroups] at h
      rw [← Option.some.inj h] at h2
      exact Or.inl h2
  | cons met rest ih =>
      rw [processGroups] at h
      cases hf : fetch met with
      | error e =>
          rw [hf] at h
          replace h : processGroups fetch rest stat = some result := h
          rcases ih stat h with h3 | ⟨g, hg, hok, hm⟩
          · exact Or.inl h3
          · exact Or.inr ⟨g, List.mem_cons_of_mem met hg, hok, hm⟩
      | ok v =>
          rw [hf] at h
          replace h :
              (match mergeStatsFromDatapoint stat v met with
                | some stat1 => processGroups fetch rest stat1
                | none => none) = some result := h
          cases hm : mergeStatsFromDatapoint stat v met with
          | none => rw [hm] at h; exact Option.noConfusion h
          | some stat2 =>
              rw [hm] at h
              rcases ih stat2 h with h3 | ⟨g, hg, hok, hmm⟩
              · rcases mergeStats_binding_origin stat v met stat2 k val hm h3 with h4 | ⟨hk, hx⟩
                · exact Or.inl h4
                · exact Or.inr ⟨met, List.mem_cons_self met rest, ⟨v, hf⟩, hk, hx⟩
              · exact Or.inr ⟨g, List.mem_cons_of_mem met hg, hok, hmm⟩

/-! Transform lemmas. -/

theorem transformMetrics_apply_ne (m : StatMap) (k : String)
    (h1 : k ≠ "invocations_success") (h2 : k ≠ "TEMPORARY_invocations_total") :
    transformMetrics m k = m k := by
  unfold transformMetrics
  cases hm : m "TEMPORARY_invocations_total" with
  | none => rfl
  | some gv =>
      cases gv with
      | other s => rfl
      | float t =>
          cases hm2 : m "invocations_error" with
          | none => simp [deleteStat, updateStat, h1, h2]
          | some gv2 =>
              cases gv2 with
              | float e => simp [deleteStat, updateStat, h1, h2]
              | other s => simp [deleteStat, updateStat, h1, h2]

theorem transformMetrics_apply_total (m : StatMap) :
    transformMetrics m "TEMPORARY_invocations_total" =
      match m "TEMPORARY_invocations_total" with
      | some (GoValue.float _) => none
      | x => x := by
  unfold transformMetrics
  cases hm : m "TEMPORARY_invocations_total" with
  | none => exact hm
  | some gv =>
      cases gv with
      | other s => exact hm
      | float t =>
          cases hm2 : m "invocations_error" with
          | none => simp [deleteStat]
          | some gv2 => cases gv2 <;> simp [deleteStat]

theorem transformMetrics_apply_success (m : StatMap) :
    transformMetrics m "invocations_success" =
      match m "TEMPORARY_invocations_total" with
      | some (GoValue.float t) =>
          match m "invocations_error" with
          | some (GoValue.float e) => some (GoValue.float (t - e))
          | _ => some (GoValue.float t)
      | _ => m "invocations_success" := by
  unfold transformMetrics
  cases hm : m "TEMPORARY_invocations_total" with
  | none => rfl
  | some gv =>
      cases gv with
      | other s => rfl
      | float t =>
          cases hm2 : m "invocations_error" with
          | none => simp [deleteStat, updateStat]
          | some gv2 => cases gv2 <;> simp [deleteStat, updateStat]

/-! Selection-loop lemmas. -/

theorem selectInv_init : SelectInv [] ((0 : Int), (none : Option Datapoint)) := by
  constructor
  · intro _
    exact ⟨rfl, fun d hd => absurd hd (List.not_mem_nil d)⟩
  · intro dp h
    exact Option.noConfusion h

theorem selectStep_inv (seen : List Datapoint) (s : Int × Option Datapoint) (x : Datapoint)
    (h : SelectInv seen s) : SelectInv (seen ++ [x]) (selectStep s x) := by
  obtain ⟨hnone, hsome⟩ := h
  unfold selectStep
  by_cases hx : x.Timestamp < s.1
  · rw [if_pos hx]
    constructor
    · intro h0
      obtain ⟨h1, h2⟩ := hnone h0
      refine ⟨h1, fun d hd => ?_⟩
      rcases List.mem_append.mp hd with hd | hd
      · exact h2 d hd
      · rw [List.mem_singleton.mp hd]
        rw [h1] at hx
        exact hx
    · intro dp hdp
      obtain ⟨h1, h2, l1, l2, hsplit, hle, hlt⟩ := hsome dp hdp
      refine ⟨h1, h2, l1, l2 ++ [x], by rw [hsplit]; simp, hle, fun d hd => ?_⟩
      rcases List.mem_append.mp hd with hd | hd
      · exact hlt d hd
      · rw [List.mem_singleton.mp hd, ← h1]
        exact hx
  · rw [if_neg hx]
    push_neg at hx
    constructor
    · intro h0
      exact Option.noConfusion h0
    · intro dp hdp
      have hdx : x = dp := Option.some.inj hdp
      subst hdx
      have hx0 : 0 ≤ x.Timestamp := by
        cases hs2 : s.2 with
        | none =>
            obtain ⟨h1, _⟩ := hnone hs2
            rw [h1] at hx
            exact hx
        | some dp0 =>
            obtain ⟨h1, h2, _⟩ := hsome dp0 hs2
            rw [h1] at hx
            exact h2.trans hx
      refine ⟨rfl, hx0, seen, [], by simp, fun d hd => ?_,
        fun d hd => absurd hd (List.not_mem_nil d)⟩
      cases hs2 : s.2 with
      | none =>
          obtain ⟨h1, h2⟩ := hnone hs2
          rw [h1] at hx
          exact (h2 d hd).le.trans hx
      | some dp0 =>
          obtain ⟨h1, _, l1, l2, hsplit, hle, hlt⟩ := hsome dp0 hs2
          rw [h1] at hx
          rw [hsplit] at hd
          rcases List.mem_append.mp hd with hd | hd
          · exact (hle d hd).trans hx
          · rcases List.mem_cons.mp hd with hd | hd
            · rw [hd]; exact hx
            · exact ((hlt d hd).le).trans hx

theorem foldl_selectStep_inv (l seen : List Datapoint) (s : Int × Option Datapoint)
    (h : SelectInv seen s) : SelectInv (seen ++ l) (l.foldl selectStep s) := by
  induction l generalizing seen s with
  | nil => simpa using h
  | cons x rest ih =>
      have h2 := ih (seen ++ [x]) (selectStep s x) (selectStep_inv seen s x h)
      rw [List.append_assoc] at h2
      rw [List.foldl_cons]
      simpa using h2

theorem selectLatestDatapoint_inv (dps : List Datapoint) :
    SelectInv dps (dps.foldl selectStep ((0 : Int), (none : Option Datapoint))) := by
  have h := foldl_selectStep_inv dps [] ((0 : Int), (none : Option Datapoint)) selectInv_init
  simpa using h

/-! Catalog facts decided by computation. -/

theorem catalog_keys_disjoint :
    ∀ g1 ∈ metricCatalog, ∀ g2 ∈ metricCatalog,
      ∀ m1 ∈ g1.Metrics, ∀ m2 ∈ g2.Metrics, m1.MackerelName = m2.MackerelName → g1 = g2 := by
  decide

theorem success_not_in_catalog :
    ∀ g ∈ metricCatalog, ∀ m ∈ g.Metrics, m.MackerelName ≠ "invocations_success" := by
  decide

theorem catalog_keys_sub :
    ∀ g ∈ metricCatalog, ∀ m ∈ g.Metrics, m.MackerelName ∈ mergedKeys := by
  decide

theorem mergedKeys_split :
    ∀ k ∈ mergedKeys, k = "TEMPORARY_invocations_total" ∨ k ∈ outputKeys := by
  decide

/-! Claim theorems. -/

/-- Claim C1, counterexample: on the non-empty input consisting of one datapoint
whose timestamp is strictly before the Go zero time, the selection loop of
`getLastPointFromCloudWatch` returns no datapoint at all, so it does not return a
datapoint with maximal timestamp as the claim asserts for every non-empty input. -/
theorem selectLatest_pre_zero_counterexample :
    selectLatestDatapoint [dpBeforeZero] = none := by decide

/-- Claim C1, amended: for every sequence of datapoints containing at least one
whose timestamp is not strictly before the zero instant, the selection of
`getLastPointFromCloudWatch` returns a datapoint whose timestamp is greater than or
equal to every candidate's timestamp, and among the candidates sharing that maximal
timestamp the one appearing last in iteration order is returned (every later
candidate is strictly earlier, every earlier candidate is not later). -/
theorem selectLatest_returns_last_latest (dps : List Datapoint)
    (h : ∃ d ∈ dps, 0 ≤ d.Timestamp) :
    ∃ dp l1 l2, selectLatestDatapoint dps = some dp ∧ dps = l1 ++ dp :: l2 ∧
      (∀ d ∈ l1, d.Timestamp ≤ dp.Timestamp) ∧
      (∀ d ∈ l2, d.Timestamp < dp.Timestamp) ∧
      (∀ d ∈ dps, d.Timestamp ≤ dp.Timestamp) := by
  obtain ⟨d0, hd0, h0⟩ := h
  have hinv := selectLatestDatapoint_inv dps
  cases hs : (dps.foldl selectStep ((0 : Int), (none : Option Datapoint))).2 with
  | none =>
      obtain ⟨_, h2⟩ := hinv.1 hs
      exact absurd (h2 d0 hd0) (not_lt.mpr h0)
  | some dp =>
      obtain ⟨_, _, l1, l2, hsplit, hle, hlt⟩ := hinv.2 dp hs
      refine ⟨dp, l1, l2, hs, hsplit, hle, hlt, fun d hd => ?_⟩
      rw [hsplit] at hd
      rcases List.mem_append.mp hd with hd | hd
      · exact hle d hd
      · rcases List.mem_cons.mp hd with hd | hd
        · rw [hd]
        · exact (hlt d hd).le

/-- Claim C1, witness: on two datapoints sharing the maximal timestamp, the amended
theorem applies and in particular yields the selected datapoint. -/
theorem selectLatest_returns_last_latest_witness :
    (∃ d ∈ [Datapoint.mk 1 (some 10) none none none,
            Datapoint.mk 1 (some 20) none none none], 0 ≤ d.Timestamp) ∧
    (∃ dp l1 l2,
      selectLatestDatapoint [Datapoint.mk 1 (some 10) none none none,
                             Datapoint.mk 1 (some 20) none none none] = some dp ∧
      [Datapoint.mk 1 (some 10) none none none,
       Datapoint.mk 1 (some 20) none none none] = l1 ++ dp :: l2 ∧
      (∀ d ∈ l1, d.Timestamp ≤ dp.Timestamp) ∧
      (∀ d ∈ l2, d.Timestamp < dp.Timestamp) ∧
      (∀ d ∈ [Datapoint.mk 1 (some 10) none none none,
              Datapoint.mk 1 (some 20) none none none], d.Timestamp ≤ dp.Timestamp)) :=
  ⟨by decide,
   selectLatest_returns_last_latest
     [Datapoint.mk 1 (some 10) none none none, Datapoint.mk 1 (some 20) none none none]
     (by decide)⟩

/-- Claim C10: the best-so-far sentinel of the selection loop is the zero time value.
First, when the upstream query succeeds with a non-empty list of datapoints all
timestamped strictly before the zero instant, `getLastPointFromCloudWatch` returns a
nil datapoint together with a nil error. Second, the returned datapoint is non-nil
only when at least one timestamp is not strictly before the zero instant. Third,
merging a nil datapoint for any catalog group dereferences its statistic fields and
panics, which is how `FetchMetrics` consumes the nil result. -/
theorem getLastPoint_zero_sentinel :
    (∀ cw now functionName met
        (dps : List Datapoint),
        cw (buildGetMetricStatisticsInput now functionName met) = .ok dps →
        dps ≠ [] → (∀ d ∈ dps, d.Timestamp < 0) →
        getLastPointFromCloudWatch cw now functionName met = .ok none) ∧
    (∀ (dps : List Datapoint) (dp : Datapoint),
        selectLatestDatapoint dps = some dp → ∃ d ∈ dps, 0 ≤ d.Timestamp) ∧
    (∀ (stat : StatMap), ∀ g ∈ metricCatalog,
        mergeStatsFromDatapoint stat none g = none) := by
  refine ⟨?_, ?_, ?_⟩
  · intro cw now functionName met dps hcw hne hneg
    unfold getLastPointFromCloudWatch
    rw [hcw]
    show (if dps.length = 0 then Except.error noDataError
          else Except.ok (selectLatestDatapoint dps)) = Except.ok none
    rw [if_neg (fun h0 => hne (List.length_eq_zero.mp h0))]
    have hsel : selectLatestDatapoint dps = none := by
      have hinv := selectLatestDatapoint_inv dps
      cases hs : (dps.foldl selectStep ((0 : Int), (none : Option Datapoint))).2 with
      | none => exact hs
      | some dp =>
          obtain ⟨_, h2, l1, l2, hsplit, _, _⟩ := hinv.2 dp hs
          have hmem : dp ∈ dps := by rw [hsplit]; exact List.mem_append_right l1 (List.mem_cons_self dp l2)
          exact absurd (hneg dp hmem) (not_lt.mpr h2)
    rw [hsel]
  · intro dps dp hs
    have hinv := selectLatestDatapoint_inv dps
    obtain ⟨_, h2, l1, l2, hsplit, _, _⟩ := hinv.2 dp hs
    refine ⟨dp, ?_, h2⟩
    rw [hsplit]
    exact List.mem_append_right l1 (List.mem_cons_self dp l2)
  · intro stat g hg
    simp only [metricCatalog, List.mem_cons, List.not_mem_nil, or_false] at hg
    rcases hg with rfl | rfl | rfl | rfl <;> rfl

/-- Claim C10, witness: the three components instantiated at a concrete all-negative
input, a concrete selected datapoint, and the first catalog group. -/
theorem getLastPoint_zero_sentinel_witness :
    getLastPointFromCloudWatch (fun _ => .ok [dpBeforeZero]) 0 "f" errorsGroup = .ok none ∧
    (∃ d ∈ [dpFull], 0 ≤ d.Timestamp) ∧
    mergeStatsFromDatapoint emptyStats none errorsGroup = none :=
  ⟨getLastPoint_zero_sentinel.1 (fun _ => .ok [dpBeforeZero]) 0 "f" errorsGroup
      [dpBeforeZero] rfl (by decide) (by decide),
   getLastPoint_zero_sentinel.2.1 [dpFull] dpFull (by decide),
   getLastPoint_zero_sentinel.2.2 emptyStats errorsGroup (by decide)⟩

/-- Claim C2: `TransformMetrics` produces the success key by exactly the stated
rules. The success binding of the output equals total minus error when both the
internal total key and the error key hold floats, equals total when the total key
holds a float and the error key does not, and is left untouched when the total key
is absent; moreover, when the total key is absent the whole record passes through
unchanged. -/
theorem transformMetrics_success_rules (stats : StatMap) :
    ((transformMetrics stats) "invocations_success" =
      match stats "TEMPORARY_invocations_total" with
      | some (GoValue.float t) =>
          match stats "invocations_error" with
          | some (GoValue.float e) => some (GoValue.float (t - e))
          | _ => some (GoValue.float t)
      | _ => stats "invocations_success") ∧
    (stats "TEMPORARY_invocations_total" = none → transformMetrics stats = stats) := by
  refine ⟨transformMetrics_apply_success stats, fun h => ?_⟩
  unfold transformMetrics
  rw [h]

/-- Claim C2, witness: on the empty record the total key is absent and the record
passes through unchanged. -/
theorem transformMetrics_success_rules_witness :
    transformMetrics emptyStats = emptyStats :=
  (transformMetrics_success_rules emptyStats).2 rfl

/-- Claim C3: for every input record whose internal total key is absent or holds a
float64 (every record the pipeline builds is float-valued), the internal total key
is absent from the record returned by `TransformMetrics`, regardless of whether a
success value was computed. -/
theorem transformMetrics_removes_total (stats : StatMap)
    (h : stats "TEMPORARY_invocations_total" = none ∨
      ∃ t, stats "TEMPORARY_invocations_total" = some (GoValue.float t)) :
    (transformMetrics stats) "TEMPORARY_invocations_total" = none := by
  rw [transformMetrics_apply_total]
  rcases h with h | ⟨t, h⟩ <;> rw [h]

/-- Claim C3, witness: a record holding only a float total key loses that key. -/
theorem transformMetrics_removes_total_witness :
    (transformMetrics (updateStat emptyStats "TEMPORARY_invocations_total"
        (GoValue.float 150))) "TEMPORARY_invocations_total" = none :=
  transformMetrics_removes_total
    (updateStat emptyStats "TEMPORARY_invocations_total" (GoValue.float 150))
    (Or.inr ⟨150, rfl⟩)

/-- Claim C5, counterexample: the metric catalog is not the table the claim
describes, because the Invocations group maps its Sum statistic to the internal
output name TEMPORARY_invocations_total, not invocations_total. -/
theorem metricCatalog_total_name_counterexample :
    (metricCatalog.map
        (fun g => (g.CloudWatchName, g.Metrics.map (fun m => (m.MackerelName, m.type))))) ≠
      [("Invocations", [("invocations_total", "Sum")]),
       ("Errors", [("invocations_error", "Sum")]),
       ("Throttles", [("invocations_throttles", "Sum")]),
       ("Duration", [("duration_avg", "Average"), ("duration_max", "Maximum"),
                     ("duration_min", "Minimum")])] := by decide

/-- Claim C5, amended: the metric catalog is the fixed list of four groups in which
Invocations maps Sum to the internal-only output name TEMPORARY_invocations_total,
Errors maps Sum to invocations_error, Throttles maps Sum to invocations_throttles,
and Duration maps Average, Maximum and Minimum to duration_avg, duration_max and
duration_min; the internal key is the one consumed (and removed) by
`TransformMetrics` whenever it holds a float. -/
theorem metricCatalog_spec :
    ((metricCatalog.map
        (fun g => (g.CloudWatchName, g.Metrics.map (fun m => (m.MackerelName, m.type))))) =
      [("Invocations", [("TEMPORARY_invocations_total", "Sum")]),
       ("Errors", [("invocations_error", "Sum")]),
       ("Throttles", [("invocations_throttles", "Sum")]),
       ("Duration", [("duration_avg", "Average"), ("duration_max", "Maximum"),
                     ("duration_min", "Minimum")])]) ∧
    (∀ (stats : StatMap) (t : Rat),
      stats "TEMPORARY_invocations_total" = some (GoValue.float t) →
      (transformMetrics stats) "TEMPORARY_invocations_total" = none) := by
  refine ⟨by decide, fun stats t h => ?_⟩
  rw [transformMetrics_apply_total, h]

/-- Claim C5, witness: the consumed-key component applied to a concrete record. -/
theorem metricCatalog_spec_witness :
    (transformMetrics (updateStat emptyStats "TEMPORARY_invocations_total"
        (GoValue.float 200))) "TEMPORARY_invocations_total" = none :=
  metricCatalog_spec.2
    (updateStat emptyStats "TEMPORARY_invocations_total" (GoValue.float 200)) 200 rfl

/-- Claim C7: merging the same group and datapoint into a record twice produces the
same record as merging it once; each write is an overwrite keyed by output name with
no accumulation, and a merge that panics leaves the run aborted either way. -/
theorem mergeStatsFromDatapoint_idempotent (stat : StatMap) (v : Option Datapoint)
    (met : metricsGroup) :
    (mergeStatsFromDatapoint stat v met).bind
        (fun r => mergeStatsFromDatapoint r v met) =
      mergeStatsFromDatapoint stat v met := by
  by_cases hp : ∃ typ ∈ met.Metrics, stepAction v typ = .panic
  · rw [mergeStatsFromDatapoint, foldlM_mergeStep_of_panic v met.Metrics stat hp]
    rfl
  · push_neg at hp
    rw [mergeStatsFromDatapoint, foldlM_mergeStep_of_no_panic v met.Metrics stat hp,
      Option.some_bind, mergeStatsFromDatapoint,
      foldlM_mergeStep_of_no_panic v met.Metrics _ hp]
    have hext : pureMergeList v met.Metrics (pureMergeList v met.Metrics stat) =
        pureMergeList v met.Metrics stat := by
      funext k
      rw [pureMergeList_apply, pureMergeList_apply]
      cases lastWriteVal v met.Metrics k <;> rfl
    rw [hext]

/-- Claim C8: with the upstream response abstracted as an oracle, the fetch returns
the no-data error exactly when the remote source yields zero datapoints for the
window; an upstream failure is passed through as-is, carrying the underlying cause,
and whenever that cause differs from the no-data error the two outcomes are
distinguishable. -/
theorem getLastPoint_noData_iff (cw : GetMetricStatisticsInput → Except GoError (List Datapoint))
    (now : Int) (functionName : String) (met : metricsGroup) (dps : List Datapoint)
    (e : GoError) :
    (cw (buildGetMetricStatisticsInput now functionName met) = .ok dps →
      (getLastPointFromCloudWatch cw now functionName met = .error noDataError ↔ dps = [])) ∧
    (cw (buildGetMetricStatisticsInput now functionName met) = .error e →
      getLastPointFromCloudWatch cw now functionName met = .error e) ∧
    (cw (buildGetMetricStatisticsInput now functionName met) = .error e →
      e ≠ noDataError →
      getLastPointFromCloudWatch cw now functionName met ≠ .error noDataError) := by
  refine ⟨fun hok => ?_, fun herr => ?_, fun herr hne => ?_⟩
  · unfold getLastPointFromCloudWatch
    rw [hok]
    show (if dps.length = 0 then Except.error noDataError
          else Except.ok (selectLatestDatapoint dps)) = Except.error noDataError ↔ dps = []
    constructor
    · intro h
      by_cases h0 : dps.length = 0
      · exact List.length_eq_zero.mp h0
      · rw [if_neg h0] at h
        exact Except.noConfusion h
    · intro h
      rw [if_pos (by rw [h]; rfl)]
  · unfold getLastPointFromCloudWatch
    rw [herr]
  · unfold getLastPointFromCloudWatch
    rw [herr]
    intro h
    exact hne (Except.error.inj h)

/-- Claim C8, witness: the empty response yields the no-data error, and an upstream
failure is passed through and differs from the no-data error. -/
theorem getLastPoint_noData_iff_witness :
    getLastPointFromCloudWatch (fun _ => .ok []) 0 "f" errorsGroup = .error noDataError ∧
    getLastPointFromCloudWatch (fun _ => .error ⟨"boom"⟩) 0 "f" errorsGroup = .error ⟨"boom"⟩ ∧
    getLastPointFromCloudWatch (fun _ => .error ⟨"boom"⟩) 0 "f" errorsGroup ≠
      .error noDataError :=
  ⟨((getLastPoint_noData_iff (fun _ => .ok []) 0 "f" errorsGroup [] noDataError).1 rfl).mpr rfl,
   (getLastPoint_noData_iff (fun _ => .error ⟨"boom"⟩) 0 "f" errorsGroup [] ⟨"boom"⟩).2.1 rfl,
   (getLastPoint_noData_iff (fun _ => .error ⟨"boom"⟩) 0 "f" errorsGroup [] ⟨"boom"⟩).2.2 rfl
     (by decide)⟩

/-- Claim C9: every fetch constructs its query with the single function-name
dimension, the window from 180 seconds before the injected collection instant up to
that instant, a 600-second aggregation period, exactly the statistic kinds of the
group's outputs, the fixed namespace, and the group's metric name; moreover the
fetch consults the remote source only at that query. -/
theorem buildInput_spec (now : Int) (functionName : String) (met : metricsGroup) :
    (buildGetMetricStatisticsInput now functionName met).Dimensions =
        [("FunctionName", functionName)] ∧
    (buildGetMetricStatisticsInput now functionName met).StartTime =
        now - 180 * timeSecond ∧
    (buildGetMetricStatisticsInput now functionName met).EndTime = now ∧
    (buildGetMetricStatisticsInput now functionName met).MetricName = met.CloudWatchName ∧
    (buildGetMetricStatisticsInput now functionName met).Period = 600 ∧
    (buildGetMetricStatisticsInput now functionName met).Statistics =
        met.Metrics.map (fun typ => typ.type) ∧
    (buildGetMetricStatisticsInput now functionName met).Namespace = "AWS/Lambda" ∧
    (∀ cw cw1 : GetMetricStatisticsInput → Except GoError (List Datapoint),
      cw (buildGetMetricStatisticsInput now functionName met) =
        cw1 (buildGetMetricStatisticsInput now functionName met) →
      getLastPointFromCloudWatch cw now functionName met =
        getLastPointFromCloudWatch cw1 now functionName met) := by
  refine ⟨rfl, rfl, rfl, rfl, rfl, rfl, rfl, fun cw cw1 h => ?_⟩
  unfold getLastPointFromCloudWatch
  rw [h]

/-- Claim C9, witness: the oracle-dependence component applied to two oracles that
agree on the constructed query. -/
theorem buildInput_spec_witness :
    getLastPointFromCloudWatch (fun _ => .ok [dpFull]) 0 "f" errorsGroup =
      getLastPointFromCloudWatch
        (fun q => if q.Namespace = "AWS/Lambda" then .ok [dpFull] else .error ⟨"x"⟩)
        0 "f" errorsGroup :=
  (buildInput_spec 0 "f" errorsGroup).2.2.2.2.2.2.2
    (fun _ => .ok [dpFull])
    (fun q => if q.Namespace = "AWS/Lambda" then .ok [dpFull] else .error ⟨"x"⟩)
    rfl

/-- Claim C4: a group whose fetch fails is skipped entirely. Processing a group
list whose head fetch fails equals processing the tail alone (so every subsequent
group is still fetched and processed and the run never aborts on a fetch error),
and in a full `FetchMetrics` run a catalog group whose fetch fails contributes none
of its output keys to the final record. -/
theorem fetchMetrics_skips_failed_groups :
    (∀ (fetch : metricsGroup → Except GoError (Option Datapoint))
        (met : metricsGroup) (rest : List metricsGroup) (stat : StatMap) (e : GoError),
        fetch met = .error e →
        processGroups fetch (met :: rest) stat = processGroups fetch rest stat) ∧
    (∀ (cw : GetMetricStatisticsInput → Except GoError (List Datapoint)) (now : Int)
        (functionName : String), ∀ g ∈ metricCatalog, ∀ (result : StatMap),
        (∃ e, getLastPointFromCloudWatch cw now functionName g = .error e) →
        fetchMetrics cw now functionName = some result →
        ∀ m ∈ g.Metrics, result m.MackerelName = none) := by
  refine ⟨processGroups_error_skip, ?_⟩
  intro cw now functionName g hg result hex hrun m hm
  obtain ⟨e, he⟩ := hex
  unfold fetchMetrics at hrun
  obtain ⟨pre, hpre, hres⟩ := Option.map_eq_some'.mp hrun
  have hprek : pre m.MackerelName = none := by
    cases hk : pre m.MackerelName with
    | none => rfl
    | some val =>
        rcases processGroups_binding_origin _ metricCatalog emptyStats pre
            m.MackerelName val hpre hk with h3 | ⟨g1, hg1, ⟨v, hok⟩, ⟨m1, hm1, hname⟩, -⟩
        · exact Option.noConfusion h3
        · have hgg : g1 = g := catalog_keys_disjoint g1 hg1 g hg m1 hm1 m hm hname
          rw [hgg] at hok
          replace hok : getLastPointFromCloudWatch cw now functionName g = .ok v := hok
          rw [he] at hok
          exact Except.noConfusion hok
  rw [← hres]
  by_cases hk2 : m.MackerelName = "TEMPORARY_invocations_total"
  · rw [hk2]
    rw [hk2] at hprek
    rw [transformMetrics_apply_total pre, hprek]
  · rw [transformMetrics_apply_ne pre m.MackerelName
      (success_not_in_catalog g hg m hm) hk2, hprek]

/-- Claim C4, witness: a failing head group is skipped, and in a run where the
Errors fetch fails the error key is absent from the final record. -/
theorem fetchMetrics_skips_failed_groups_witness :
    processGroups (fun _ => .error ⟨"boom"⟩) (errorsGroup :: []) emptyStats =
      processGroups (fun _ => .error ⟨"boom"⟩) [] emptyStats ∧
    ((fetchMetrics cwErrorsFail 0 "f").getD emptyStats) "invocations_error" = none :=
  ⟨fetchMetrics_skips_failed_groups.1 (fun _ => .error ⟨"boom"⟩) errorsGroup []
      emptyStats ⟨"boom"⟩ rfl,
   fetchMetrics_skips_failed_groups.2 cwErrorsFail 0 "f" errorsGroup (by decide)
      ((fetchMetrics cwErrorsFail 0 "f").getD emptyStats) ⟨⟨"boom"⟩, rfl⟩ rfl
      ⟨"invocations_error", metricsTypeSum⟩ (by decide)⟩

/-- Claim C6: every key of the record returned by a successful `FetchMetrics` run
belongs to the six-element output key set, and every value stored under such a key
is a float64. -/
theorem fetchMetrics_output_keys_float
    (cw : GetMetricStatisticsInput → Except GoError (List Datapoint)) (now : Int)
    (functionName : String) (result : StatMap)
    (hrun : fetchMetrics cw now functionName = some result) :
    ∀ k v, result k = some v → k ∈ outputKeys ∧ ∃ x, v = GoValue.float x := by
  unfold fetchMetrics at hrun
  obtain ⟨pre, hpre, hres⟩ := Option.map_eq_some'.mp hrun
  have hpreF : ∀ k val, pre k = some val → k ∈ mergedKeys ∧ ∃ x, val = GoValue.float x := by
    intro k val hk
    rcases processGroups_binding_origin _ metricCatalog emptyStats pre k val hpre hk with
      h3 | ⟨g1, hg1, -, ⟨m1, hm1, hname⟩, hx⟩
    · exact Option.noConfusion h3
    · exact ⟨hname ▸ catalog_keys_sub g1 hg1 m1 hm1, hx⟩
  have hpreSuccess : pre "invocations_success" = none := by
    cases hks : pre "invocations_success" with
    | none => rfl
    | some val =>
        rcases processGroups_binding_origin _ metricCatalog emptyStats pre _ val hpre hks with
          h3 | ⟨g1, hg1, -, ⟨m1, hm1, hname⟩, -⟩
        · exact Option.noConfusion h3
        · exact absurd hname (success_not_in_catalog g1 hg1 m1 hm1)
  intro k v hkv
  rw [← hres] at hkv
  by_cases hk1 : k = "invocations_success"
  · subst hk1
    refine ⟨by decide, ?_⟩
    rw [transformMetrics_apply_success pre] at hkv
    cases hT : pre "TEMPORARY_invocations_total" with
    | none =>
        rw [hT] at hkv
        replace hkv : pre "invocations_success" = some v := hkv
        rw [hpreSuccess] at hkv
        exact Option.noConfusion hkv
    | some gv =>
        rcases hpreF _ gv hT with ⟨-, t, rfl⟩
        rw [hT] at hkv
        cases hE : pre "invocations_error" with
        | none =>
            rw [hE] at hkv
            exact ⟨t, (Option.some.inj hkv).symm⟩
        | some gv2 =>
            rcases hpreF _ gv2 hE with ⟨-, e, rfl⟩
            rw [hE] at hkv
            exact ⟨t - e, (Option.some.inj hkv).symm⟩
  · by_cases hk2 : k = "TEMPORARY_invocations_total"
    · exfalso
      subst hk2
      rw [transformMetrics_apply_total pre] at hkv
      cases hT : pre "TEMPORARY_invocations_total" with
      | none =>
          rw [hT] at hkv
          exact Option.noConfusion hkv
      | some gv =>
          rcases hpreF _ gv hT with ⟨-, t, rfl⟩
          rw [hT] at hkv
          exact Option.noConfusion hkv
    · rw [transformMetrics_apply_ne pre k hk1 hk2] at hkv
      obtain ⟨hmem, hx⟩ := hpreF k v hkv
      rcases mergedKeys_split k hmem with h | h
      · exact absurd h hk2
      · exact ⟨h, hx⟩

/-- Claim C6, witness: in a concrete partially failing run, the success key is one
of the six output keys and holds a float value. -/
theorem fetchMetrics_output_keys_float_witness :
    "invocations_success" ∈ outputKeys ∧ ∃ x, GoValue.float 2 = GoValue.float x :=
  fetchMetrics_output_keys_float cwErrorsFail 0 "f"
    ((fetchMetrics cwErrorsFail 0 "f").getD emptyStats) rfl
    "invocations_success" (GoValue.float 2) (by decide)

end MpAwsLambda
